import Mathlib

/-!
Shallow embedding of the Lumine repository's core components, translated
from the source:

* `src/usdcx-bridge/helper.js` — the c32 address codec
  (`c32Decode`, `encodeRecipient`, `bytes32FromBytes`, `encodeStacksAddress`);
* `src/unnamed/part_000` — the bridge deposit flow (`bridgeMain`);
* `src/unnamed/part_002` — the payment gateway middleware (`requirePayment`);
* `src/packages/lumine-client/src/index.ts` — the payment client (`clientGet`);
* `src/usdcx-bridge/stacks-signer.js` — the signer service (`signerMain`).

Bytes are modelled as `Nat` (each produced byte is shown `< 256`), byte
strings as `List Nat`, bit strings as `List Bool` (most significant bit
first, mirroring the JavaScript code's `"0"`/`"1"` strings), and JS
exceptions as `Except` errors.
-/

/-! ## Address codec (`src/usdcx-bridge/helper.js`) -/

/-- Error taxonomy of the codec, one constructor per `throw` site in
`helper.js`. -/
inductive CodecError where
  | InvalidCharacter
  | UnknownAddressPrefix
  | MalformedBody
  | InputTooLong
deriving DecidableEq

/-- The c32 alphabet used by Stacks addresses
(`const C32_ALPHABET = "0123456789ABCDEFGHJKMNPQRSTVWXYZ"`). -/
def C32_ALPHABET : String := "0123456789ABCDEFGHJKMNPQRSTVWXYZ"

/-- Version byte for `ST` addresses (`STACKS_TESTNET_P2PKH = 26`, 0x1a). -/
def STACKS_TESTNET_P2PKH : Nat := 26

/-- Version byte for `SP` addresses (`STACKS_MAINNET_P2PKH = 22`, 0x16). -/
def STACKS_MAINNET_P2PKH : Nat := 22

/-- Index of a character in the c32 alphabet
(`C32_ALPHABET.indexOf(char)`, with `none` for the JS result `-1`). -/
def c32Index (c : Char) : Option Nat :=
  (C32_ALPHABET.toList).findIdx? (· = c)

/-- The 5-bit group of one alphabet index, most significant bit first
(`index.toString(2).padStart(5, "0")`). -/
def natToBits5 (n : Nat) : List Bool :=
  [n / 16 % 2 = 1, n / 8 % 2 = 1, n / 4 % 2 = 1, n / 2 % 2 = 1, n % 2 = 1]

/-- Concatenation of the 5-bit groups of all characters, after uppercasing
(the first loop of `c32Decode`); `none` when some character is outside the
alphabet. -/
def c32CharsToBits : List Char → Option (List Bool)
  | [] => some []
  | c :: cs =>
    match c32Index c.toUpper, c32CharsToBits cs with
    | some i, some rest => some (natToBits5 i ++ rest)
    | _, _ => none

/-- Trim leading zero bits while the length is not a multiple of 8
(`while (bits.length % 8 !== 0 && bits.startsWith("0")) bits = bits.slice(1)`). -/
def trimBits : List Bool → List Bool
  | [] => []
  | true :: rest => true :: rest
  | false :: rest =>
    if (rest.length + 1) % 8 ≠ 0 then trimBits rest else false :: rest

/-- Left-pad with zero bits up to the next multiple of 8
(`while (bits.length % 8 !== 0) bits = "0" + bits`): the loop prepends
exactly `(8 - length % 8) % 8` zero bits. -/
def padBitsTo8 (bits : List Bool) : List Bool :=
  List.replicate ((8 - bits.length % 8) % 8) false ++ bits

/-- Re-chunk an aligned bit string into bytes, most significant bit first
(`parseInt(bits.slice(i, i + 8), 2)`); the codec only applies this to bit
strings whose length is a multiple of 8. -/
def bitsToBytes : List Bool → List Nat
  | b0 :: b1 :: b2 :: b3 :: b4 :: b5 :: b6 :: b7 :: rest =>
    (List.foldl (fun a b => 2 * a + (if b then 1 else 0)) 0
      [b0, b1, b2, b3, b4, b5, b6, b7]) :: bitsToBytes rest
  | _ => []

/-- Decode a c32 string to bytes (`c32Decode` in `helper.js`). -/
def c32Decode (input : String) : Except CodecError (List Nat) :=
  match c32CharsToBits input.toList with
  | none => .error .InvalidCharacter
  | some bits => .ok (bitsToBytes (padBitsTo8 (trimBits bits)))

/-- Version-byte selection of `encodeRecipient`: the `if`/`else if`/`else`
chain on the uppercased 2-character start of the address, with `none` for
the `throw` branch. -/
def stacksVersionOf? (pfx : String) : Option Nat :=
  if pfx = "ST" then some STACKS_TESTNET_P2PKH
  else if pfx = "SP" then some STACKS_MAINNET_P2PKH
  else none

/-- The key `stacksAddress.slice(0, 2).toUpperCase()` computed by
`encodeRecipient` (character-wise uppercasing of the first two
characters). -/
def addrVersionKey (stacksAddress : String) : String :=
  String.mk ((stacksAddress.take 2).toList.map Char.toUpper)

/-- Encode a Stacks address into the 21-byte remote-recipient form
(`encodeRecipient` in `helper.js`): version byte chosen from the
2-character address start, then the first 20 decoded bytes, the 4-byte
checksum dropped. -/
def encodeRecipient (stacksAddress : String) : Except CodecError (List Nat) :=
  match stacksVersionOf? (addrVersionKey stacksAddress) with
  | none => .error .UnknownAddressPrefix
  | some version =>
    match c32Decode (stacksAddress.drop 2) with
    | .error e => .error e
    | .ok decoded =>
      if decoded.length ≠ 24 then .error .MalformedBody
      else .ok (version :: decoded.take 20)

/-- Left-pad a byte sequence with zero bytes to 32 bytes
(`bytes32FromBytes` in `helper.js`; the viem `pad` call on the hex string is
modelled at the byte level). -/
def bytes32FromBytes (bytes : List Nat) : Except CodecError (List Nat) :=
  if bytes.length > 32 then .error .InputTooLong
  else .ok (List.replicate (32 - bytes.length) 0 ++ bytes)

/-- Full pipeline `encodeStacksAddress = bytes32FromBytes ∘ encodeRecipient`
(`encodeStacksAddress` in `helper.js`). -/
def encodeStacksAddress (stacksAddress : String) : Except CodecError (List Nat) :=
  match encodeRecipient stacksAddress with
  | .error e => .error e
  | .ok r => bytes32FromBytes r

/-- Value of a bit string read most significant bit first. -/
def bitsToNat (bits : List Bool) : Nat :=
  bits.foldl (fun a b => 2 * a + (if b then 1 else 0)) 0

/-- Value of a byte string read big-endian. -/
def beBytesToNat (bytes : List Nat) : Nat :=
  bytes.foldl (fun a b => 256 * a + b) 0

/-- Character validity in the c32 alphabet (case-insensitive, as in
`input.toUpperCase()`). -/
def isC32Char (c : Char) : Bool :=
  (c32Index c.toUpper).isSome

deriving instance DecidableEq for Except

/-! ## Bridge deposit flow (`src/unnamed/part_000`, `main`) -/

/-- Failure modes of the deposit flow: missing key env var, the balance
guard, a codec throw, or a chain submission/confirmation throw. -/
inductive FlowError where
  | MissingKey
  | InsufficientBalance
  | Codec (e : CodecError)
  | ChainError (msg : String)
deriving DecidableEq

/-- A transaction submission performed by the flow, with the arguments the
source passes to `writeContract`. -/
inductive BridgeTx where
  | approve (spender : String) (amount : Nat)
  | deposit (value : Nat) (remoteDomain : Nat) (remoteRecipient : List Nat)
      (localToken : String) (maxFee : Nat)
deriving DecidableEq

/-- Environment of one flow run: the key's presence, the USDC balance read
from chain, and the outcome of each awaited chain call (`.error` models a
thrown/rejected promise). -/
structure BridgeEnv where
  privateKeyPresent : Bool
  usdcBalance : Nat
  approveSubmit : Except String String
  approveReceipt : Except String Unit
  depositSubmit : Except String String
  depositReceipt : Except String Unit
deriving DecidableEq

/-- Bridge contract address (`config.X_RESERVE_CONTRACT`). -/
def X_RESERVE_CONTRACT : String := "0x008888878f94C0d87defdf0B07f46B93C1934442"

/-- Source token contract address (`config.ETH_USDC_CONTRACT`). -/
def ETH_USDC_CONTRACT : String := "0x1c7D4B196Cb0C7B01d743Fbc6116a902379C7238"

/-- Destination domain identifier (`config.STACKS_DOMAIN`). -/
def STACKS_DOMAIN : Nat := 10003

/-- The `main` of `src/unnamed/part_000`: balance guard, recipient encoding,
approval, then deposit, each submission recorded in the returned trace at the
moment `writeContract` is invoked. `value` and `maxFee` model the parsed
`config.DEPOSIT_AMOUNT` and `config.MAX_FEE` in base units. -/
def bridgeMain (env : BridgeEnv) (value maxFee : Nat) (stacksRecipient : String) :
    List BridgeTx × Except FlowError String :=
  if env.privateKeyPresent = false then ([], .error .MissingKey)
  else if env.usdcBalance < value then ([], .error .InsufficientBalance)
  else
    match encodeStacksAddress stacksRecipient with
    | .error e => ([], .error (.Codec e))
    | .ok remoteRecipient =>
      let txA : BridgeTx := .approve X_RESERVE_CONTRACT value
      match env.approveSubmit with
      | .error m => ([txA], .error (.ChainError m))
      | .ok _hash =>
        match env.approveReceipt with
        | .error m => ([txA], .error (.ChainError m))
        | .ok () =>
          let txD : BridgeTx :=
            .deposit value STACKS_DOMAIN remoteRecipient ETH_USDC_CONTRACT maxFee
          match env.depositSubmit with
          | .error m => ([txA, txD], .error (.ChainError m))
          | .ok depositTxHash =>
            match env.depositReceipt with
            | .error m => ([txA, txD], .error (.ChainError m))
            | .ok () => ([txA, txD], .ok depositTxHash)

/-! ## Payment gateway (`src/unnamed/part_002`, `requirePayment`) -/

/-- A header value as typed in the gateway's request interface:
`string | string[]` (with `Option` for `undefined`). -/
inductive HeaderVal where
  | str (s : String)
  | strs (l : List String)
deriving DecidableEq

/-- JavaScript truthiness of `req.headers["x-payment-txid"]`: `undefined`
and the empty string are falsy; any array is truthy. -/
def jsHeaderTruthy : Option HeaderVal → Bool
  | none => false
  | some (.str s) => s != ""
  | some (.strs _) => true

/-- An inbound request, reduced to its header map. -/
structure GatewayRequest where
  header : String → Option HeaderVal

/-- Middleware configuration after the defaults of `requirePayment` are
applied (`recipient` from the env var, `network = "stacks-testnet"`). -/
structure PaymentConfig where
  amount : String
  recipient : String
  network : String
deriving DecidableEq

/-- The JSON body of the 402 response, field for field. -/
structure PaymentBody where
  error : String
  message : String
  amount : String
  recipient : String
  network : String
  currency : String
deriving DecidableEq

/-- What one middleware invocation does: call `next()`, or send a response
with a status, headers set via `setHeader`, and a JSON body. -/
inductive GatewayOutcome where
  | next
  | respond (status : Nat) (headers : List (String × String)) (body : PaymentBody)
deriving DecidableEq

/-- The handler returned by `requirePayment` in `src/unnamed/part_002`.
The response object's `setHeader` is a required member of the
`GatewayResponse` interface, so the `if (setHeader)` guard in the source is
always taken. -/
def requirePayment (config : PaymentConfig) (req : GatewayRequest) : GatewayOutcome :=
  if jsHeaderTruthy (req.header "x-payment-txid") then .next
  else
    .respond 402
      [("X-Payment-Amount", config.amount),
       ("X-Payment-Recipient", config.recipient),
       ("X-Payment-Network", config.network)]
      { error := "Payment Required"
        message := "This endpoint requires payment to access"
        amount := config.amount
        recipient := config.recipient
        network := config.network
        currency := "USDCx" }

/-! ## Payment client (`src/packages/lumine-client/src/index.ts`) -/

/-- The slice of `RequestInit` the client manipulates: the method and any
caller-supplied headers. -/
structure JsRequestInit where
  method : Option String
  headers : List (String × String)
deriving DecidableEq

/-- A fetch response, reduced to its status code and whether its body
parses as JSON (the fate of an awaited `.json()` call on it). -/
structure JsResponse where
  status : Nat
  bodyIsJson : Bool
deriving DecidableEq

/-- The `Response.ok` accessor of fetch: status in the range 200–299. -/
def JsResponse.isOk (r : JsResponse) : Bool :=
  decide (200 ≤ r.status ∧ r.status ≤ 299)

/-- Call-site role of a fetch: the gated resource or the settlement
trigger. -/
inductive FetchKind where
  | gated
  | settlement
deriving DecidableEq

/-- One fetch call the client performs. -/
structure FetchCall where
  kind : FetchKind
  url : String
  init : JsRequestInit
deriving DecidableEq

/-- The responses the environment returns to the (up to three) fetches. -/
structure ClientEnv where
  first : JsResponse
  demo : JsResponse
  retry : JsResponse
deriving DecidableEq

/-- Client-side terminal errors: the thrown
`Error("Payment failed: ...")` on a non-2xx settlement response, and the
rejection of `await demoResponse.json()` when the settlement response body
is not valid JSON. -/
inductive ClientError where
  | PaymentExecutionFailed (status : Nat)
  | SettlementBodyNotJson
deriving DecidableEq

/-- The request options actually passed to fetch:
`{ ...options, method: "GET" }` — object spread of the caller's options,
then the `method` member set last, overriding any caller-supplied method. -/
def spreadWithGet (options : Option JsRequestInit) : JsRequestInit :=
  { method := some "GET"
    headers := (options.map (·.headers)).getD [] }

/-- The `get` of `createLumineClient`: initial request, 402 detection,
settlement trigger `POST {apiBaseUrl}/demo/run`, the awaited
`demoResponse.json()` (which rejects when the settlement response body is
not valid JSON, before any retry), and the single retry. Returns the trace
of fetch calls together with the result (`.error` models a throw). -/
def clientGet (apiBaseUrl url : String) (options : Option JsRequestInit)
    (env : ClientEnv) : List FetchCall × Except ClientError JsResponse :=
  let call1 : FetchCall := ⟨.gated, url, spreadWithGet options⟩
  if env.first.status ≠ 402 then ([call1], .ok env.first)
  else
    let call2 : FetchCall :=
      ⟨.settlement, apiBaseUrl ++ "/demo/run",
        { method := some "POST", headers := [("Content-Type", "application/json")] }⟩
    if env.demo.isOk = false then
      ([call1, call2], .error (.PaymentExecutionFailed env.demo.status))
    else if env.demo.bodyIsJson = false then
      ([call1, call2], .error .SettlementBodyNotJson)
    else
      ([call1, call2, ⟨.gated, url, spreadWithGet options⟩], .ok env.retry)

/-! ## Signer service (`src/usdcx-bridge/stacks-signer.js`, `main`)

The JS `BigInt(amountStr)` conversion is modelled by `bigIntOfString?`,
following the ECMAScript `StringToBigInt` rules: trim whitespace, empty
string means zero, `0x`/`0X`/`0o`/`0O`/`0b`/`0B` radix forms (no sign),
or an optionally signed decimal digit string; anything else throws. -/

/-- Value of a decimal digit character. -/
def decDigitVal? (c : Char) : Option Nat :=
  if c.isDigit then some (c.toNat - 48) else none

/-- Value of a hexadecimal digit character. -/
def hexDigitVal? (c : Char) : Option Nat :=
  if c.isDigit then some (c.toNat - 48)
  else if 'a' ≤ c ∧ c ≤ 'f' then some (c.toNat - 97 + 10)
  else if 'A' ≤ c ∧ c ≤ 'F' then some (c.toNat - 65 + 10)
  else none

/-- Value of an octal digit character. -/
def octDigitVal? (c : Char) : Option Nat :=
  if '0' ≤ c ∧ c ≤ '7' then some (c.toNat - 48) else none

/-- Value of a binary digit character. -/
def binDigitVal? (c : Char) : Option Nat :=
  if c = '0' then some 0 else if c = '1' then some 1 else none

/-- Value of a non-empty digit string in the given base; `none` when empty
or when some character is not a digit of the base. -/
def digitsVal? (base : Nat) (dv : Char → Option Nat) : List Char → Option Nat
  | [] => none
  | l =>
    l.foldl
      (fun acc c =>
        match acc, dv c with
        | some a, some d => some (base * a + d)
        | _, _ => none)
      (some 0)

/-- Strip leading and trailing whitespace from a character list (the
whitespace trimming step of `StringToBigInt`). -/
def trimWs (l : List Char) : List Char :=
  ((l.dropWhile Char.isWhitespace).reverse.dropWhile Char.isWhitespace).reverse

/-- The ECMAScript `StringToBigInt` conversion applied by `BigInt(amountStr)`;
`none` models a thrown `SyntaxError`. -/
def bigIntOfString? (s : String) : Option Int :=
  match trimWs s.toList with
  | [] => some 0
  | '0' :: 'x' :: rest => (digitsVal? 16 hexDigitVal? rest).map Int.ofNat
  | '0' :: 'X' :: rest => (digitsVal? 16 hexDigitVal? rest).map Int.ofNat
  | '0' :: 'o' :: rest => (digitsVal? 8 octDigitVal? rest).map Int.ofNat
  | '0' :: 'O' :: rest => (digitsVal? 8 octDigitVal? rest).map Int.ofNat
  | '0' :: 'b' :: rest => (digitsVal? 2 binDigitVal? rest).map Int.ofNat
  | '0' :: 'B' :: rest => (digitsVal? 2 binDigitVal? rest).map Int.ofNat
  | '+' :: rest => (digitsVal? 10 decDigitVal? rest).map Int.ofNat
  | '-' :: rest => (digitsVal? 10 decDigitVal? rest).map (fun n => -(Int.ofNat n))
  | cs => (digitsVal? 10 decDigitVal? cs).map Int.ofNat

/-- The broadcast API response: an optional error code with optional
human-readable reason, or a transaction id. -/
structure BroadcastResponse where
  error : Option String
  reason : Option String
  txid : String
deriving DecidableEq

/-- Environment of one signer invocation: the outcome of each awaited
library call inside the `try` block (`.error` models a thrown exception
with its message). -/
structure SignerEnv where
  derive : Except String String
  build : Except String Unit
  broadcast : Except String BroadcastResponse
deriving DecidableEq

/-- One JSON line printed by the signer to standard output. -/
inductive SignerLine where
  | failure (error : String) (reason : Option String)
  | success (txid sender recipient amount : String)
deriving DecidableEq

/-- Outcome of one signer process run: the JSON lines printed, the exit
code (`none` when an exception escaped `main` uncaught, crashing the
process with no structured output), and whether key material was touched. -/
structure SignerResult where
  lines : List SignerLine
  exitCode : Option Nat
  keyTouched : Bool
deriving DecidableEq

/-- The usage message of `stacks-signer.js`. -/
def SIGNER_USAGE : String :=
  "Usage: node stacks-signer.js <privateKey> <recipient> <amount>"

/-- The `main` of `stacks-signer.js`: argument-count check, `BigInt`
conversion of the amount (outside the `try` block), key-suffix
normalization, then derivation, build and broadcast inside `try`/`catch`.
`keyTouched` becomes true once the key is read for normalization or
derivation. -/
def signerMain (env : SignerEnv) (args : List String) : SignerResult :=
  match args with
  | [] =>
    { lines := [.failure SIGNER_USAGE none], exitCode := some 1, keyTouched := false }
  | [_] =>
    { lines := [.failure SIGNER_USAGE none], exitCode := some 1, keyTouched := false }
  | [_, _] =>
    { lines := [.failure SIGNER_USAGE none], exitCode := some 1, keyTouched := false }
  | privateKey :: recipient :: amountStr :: _ =>
    match bigIntOfString? amountStr with
    | none =>
      { lines := [], exitCode := none, keyTouched := false }
    | some _amount =>
      let _key := if privateKey.length = 64 then privateKey ++ "01" else privateKey
      match env.derive with
      | .error msg =>
        { lines := [.failure msg none], exitCode := some 1, keyTouched := true }
      | .ok senderAddress =>
        match env.build with
        | .error msg =>
          { lines := [.failure msg none], exitCode := some 1, keyTouched := true }
        | .ok () =>
          match env.broadcast with
          | .error msg =>
            { lines := [.failure msg none], exitCode := some 1, keyTouched := true }
          | .ok resp =>
            match resp.error with
            | some code =>
              { lines := [.failure code resp.reason], exitCode := some 1,
                keyTouched := true }
            | none =>
              { lines := [.success resp.txid senderAddress recipient amountStr],
                exitCode := some 0, keyTouched := true }

/-! ## Concrete data for the C1 scenario -/

/-- The scenario address of C1. -/
def c1Addr : String := "ST3Q6YCK0E2SDAA1KS7X546NY02F12D88RZHAH2P3"

/-- The 24 bytes the c32 body of `c1Addr` decodes to
(20-byte hash160 followed by the 4-byte checksum). -/
def c1Decoded : List Nat :=
  [238, 111, 50, 96, 112, 178, 213, 40, 51, 201, 250, 82,
   26, 190, 0, 158, 17, 53, 8, 199, 226, 168, 138, 195]

/-- The 32-byte pipeline output for `c1Addr`. -/
def c1Bytes32 : List Nat :=
  [0, 0, 0, 0, 0, 0, 0, 0, 0, 0, 0, 26,
   238, 111, 50, 96, 112, 178, 213, 40, 51, 201,
   250, 82, 26, 190, 0, 158, 17, 53, 8, 199]

/-! ## Theorems -/

/-- Helper: the only error `c32Decode` ever reports is `InvalidCharacter`. -/
theorem c32Decode_error_eq (s : String) (e : CodecError)
    (h : c32Decode s = .error e) : e = .InvalidCharacter := by
  unfold c32Decode at h
  cases hb : c32CharsToBits s.toList <;> rw [hb] at h <;> simp at h
  exact h.symm

/-- C1: encoding the chain address `"ST3Q6YCK0E2SDAA1KS7X546NY02F12D88RZHAH2P3"`
through the full codec pipeline (version lookup, c32 body decode, checksum
drop, fixed-width padding) yields a 32-byte value whose first 11 bytes are
zero, whose 12th byte is 0x1a, and whose final 20 bytes are the address's
decoded hash160. -/
theorem c1_scenario_st_address :
    encodeStacksAddress c1Addr = .ok c1Bytes32 ∧
    c32Decode (c1Addr.drop 2) = .ok c1Decoded ∧
    c1Bytes32.length = 32 ∧
    c1Bytes32.take 11 = List.replicate 11 0 ∧
    c1Bytes32.getD 11 0 = 26 ∧
    c1Bytes32.drop 12 = c1Decoded.take 20 := by
  set_option maxRecDepth 20000 in decide

/-- C8: `bytes32FromBytes` fails with `InputTooLong` exactly on inputs longer
than 32 bytes, left-pads shorter inputs with zero bytes to exactly 32 bytes,
and is idempotent on its own output. -/
theorem c8_bytes32_fixed_width :
    (∀ bs : List Nat, bytes32FromBytes bs = .error .InputTooLong ↔ 32 < bs.length) ∧
    (∀ bs : List Nat, bs.length ≤ 32 →
      bytes32FromBytes bs = .ok (List.replicate (32 - bs.length) 0 ++ bs)) ∧
    (∀ bs out : List Nat, bytes32FromBytes bs = .ok out →
      out.length = 32 ∧ bytes32FromBytes out = .ok out) := by
  refine ⟨fun bs => ?_, fun bs h => ?_, fun bs out h => ?_⟩
  · unfold bytes32FromBytes
    split_ifs with h <;> simp [h]
  · unfold bytes32FromBytes
    split_ifs with h2
    · omega
    · rfl
  · by_cases h2 : bs.length > 32
    · simp [bytes32FromBytes, h2] at h
    · simp only [bytes32FromBytes, if_neg h2, Except.ok.injEq] at h
      have hl : out.length = 32 := by
        rw [← h]
        simp only [List.length_append, List.length_replicate]
        omega
      refine ⟨hl, ?_⟩
      simp [bytes32FromBytes, hl]

/-- Witness for C8 at a concrete input. -/
theorem c8_witness :
    bytes32FromBytes [7, 9] = .ok (List.replicate 30 0 ++ [7, 9]) :=
  c8_bytes32_fixed_width.2.1 [7, 9] (by decide)

/-- C4: when the balance read at flow start is below the requested amount,
the flow fails with `InsufficientBalance` and the submission trace is empty —
neither the approval nor the deposit transaction is submitted. -/
theorem c4_insufficient_balance_no_tx :
    ∀ (env : BridgeEnv) (value maxFee : Nat) (recipient : String),
      env.privateKeyPresent = true →
      env.usdcBalance < value →
      bridgeMain env value maxFee recipient = ([], .error .InsufficientBalance) := by
  intro env value maxFee recipient hkey hbal
  simp [bridgeMain, hkey, hbal]

/-- Environment for the C4 witness. -/
def c4Env : BridgeEnv :=
  { privateKeyPresent := true, usdcBalance := 5,
    approveSubmit := .ok "0xa", approveReceipt := .ok (),
    depositSubmit := .ok "0xd", depositReceipt := .ok () }

/-- Witness for C4 at a concrete environment. -/
theorem c4_witness :
    bridgeMain c4Env 1000000 0 c1Addr = ([], .error .InsufficientBalance) :=
  c4_insufficient_balance_no_tx c4Env 1000000 0 c1Addr (by decide) (by decide)

/-- C5: a request whose `x-payment-txid` header holds a non-empty string is
always forwarded (no proof validation), and a request without the header
always receives status 402 with the three payment headers and the JSON body
repeating those fields. -/
theorem c5_gateway_behavior :
    ∀ (config : PaymentConfig) (req : GatewayRequest),
      (∀ s, req.header "x-payment-txid" = some (.str s) → s ≠ "" →
        requirePayment config req = .next) ∧
      (req.header "x-payment-txid" = none →
        requirePayment config req =
          .respond 402
            [("X-Payment-Amount", config.amount),
             ("X-Payment-Recipient", config.recipient),
             ("X-Payment-Network", config.network)]
            { error := "Payment Required"
              message := "This endpoint requires payment to access"
              amount := config.amount
              recipient := config.recipient
              network := config.network
              currency := "USDCx" }) := by
  intro config req
  constructor
  · intro s hs hne
    simp [requirePayment, jsHeaderTruthy, hs, hne]
  · intro h
    simp [requirePayment, jsHeaderTruthy, h]

/-- Request for the C5 witness: a non-empty payment proof header. -/
def c5ReqPaid : GatewayRequest :=
  ⟨fun n => if n = "x-payment-txid" then some (.str "0xabc") else none⟩

/-- Witness for C5 at a concrete request. -/
theorem c5_witness :
    requirePayment ⟨"100000", "SPX", "stacks-testnet"⟩ c5ReqPaid = .next :=
  (c5_gateway_behavior ⟨"100000", "SPX", "stacks-testnet"⟩ c5ReqPaid).1 "0xabc"
    (by simp [c5ReqPaid]) (by decide)

/-- C9: a request whose `x-payment-txid` header is present but equal to the
empty string is treated as unpaid — the gateway sends the 402 response
rather than forwarding, because the check requires a truthy value. -/
theorem c9_empty_txid_rejected :
    ∀ (config : PaymentConfig) (req : GatewayRequest),
      req.header "x-payment-txid" = some (.str "") →
      requirePayment config req ≠ .next ∧
      requirePayment config req =
        .respond 402
          [("X-Payment-Amount", config.amount),
           ("X-Payment-Recipient", config.recipient),
           ("X-Payment-Network", config.network)]
          { error := "Payment Required"
            message := "This endpoint requires payment to access"
            amount := config.amount
            recipient := config.recipient
            network := config.network
            currency := "USDCx" } := by
  intro config req h
  constructor
  · simp [requirePayment, jsHeaderTruthy, h]
  · simp [requirePayment, jsHeaderTruthy, h]

/-- Request for the C9 witness: an empty-string payment proof header. -/
def c9ReqEmpty : GatewayRequest :=
  ⟨fun n => if n = "x-payment-txid" then some (.str "") else none⟩

/-- Witness for C9 at a concrete request. -/
theorem c9_witness :
    requirePayment ⟨"100000", "SPX", "stacks-testnet"⟩ c9ReqEmpty ≠ .next :=
  ((c9_empty_txid_rejected ⟨"100000", "SPX", "stacks-testnet"⟩ c9ReqEmpty)
    (by simp [c9ReqEmpty])).1

/-- C10: both the initial request and the retry force the HTTP method to GET,
overriding any method in the caller's options. -/
theorem c10_method_forced_get :
    ∀ (apiBaseUrl url : String) (options : Option JsRequestInit) (env : ClientEnv),
      ∀ c ∈ (clientGet apiBaseUrl url options env).1,
        c.kind = .gated → c.init.method = some "GET" := by
  intro base url options env c hc hk
  simp only [clientGet] at hc
  split at hc
  · simp at hc
    subst hc
    rfl
  · split at hc
    · simp at hc
      rcases hc with rfl | rfl
      · rfl
      · simp at hk
    · split at hc
      · simp at hc
        rcases hc with rfl | rfl
        · rfl
        · simp at hk
      · simp at hc
        rcases hc with rfl | rfl | rfl
        · rfl
        · simp at hk
        · rfl

/-- Helper: validity of all characters decides whether the 5-bit groups can
be built. -/
theorem c32CharsToBits_isSome (l : List Char) :
    (c32CharsToBits l).isSome = l.all isC32Char := by
  induction l with
  | nil => rfl
  | cons c cs ih =>
    simp only [List.all_cons, ← ih]
    rcases hi : c32Index c.toUpper with _ | i <;>
      rcases hcs : c32CharsToBits cs with _ | rest <;>
        simp [c32CharsToBits, hi, hcs, isC32Char]

/-- Helper: a leading zero bit does not change the value of a bit string. -/
theorem bitsToNat_cons_false (l : List Bool) :
    bitsToNat (false :: l) = bitsToNat l := rfl

/-- Helper: trimming leading zero bits preserves the value. -/
theorem bitsToNat_trimBits (l : List Bool) :
    bitsToNat (trimBits l) = bitsToNat l := by
  induction l with
  | nil => rfl
  | cons b rest ih =>
    cases b
    · simp only [trimBits]
      split_ifs with h
      · rw [bitsToNat_cons_false]
        exact ih
      · rfl
    · rfl

/-- Helper: prepending zero bits preserves the value. -/
theorem bitsToNat_replicate_false (k : Nat) (l : List Bool) :
    bitsToNat (List.replicate k false ++ l) = bitsToNat l := by
  induction k with
  | zero => rfl
  | succ k ih =>
    rw [List.replicate_succ, List.cons_append, bitsToNat_cons_false]
    exact ih

/-- Helper: padding to the byte boundary preserves the value. -/
theorem bitsToNat_padBitsTo8 (l : List Bool) :
    bitsToNat (padBitsTo8 l) = bitsToNat l :=
  bitsToNat_replicate_false _ l

/-- Helper: after padding, the length is a multiple of 8. -/
theorem padBitsTo8_length (l : List Bool) :
    (padBitsTo8 l).length % 8 = 0 := by
  simp only [padBitsTo8, List.length_append, List.length_replicate]
  omega

/-- Helper: the big-endian value of the re-chunked bytes equals the value of
the aligned bit string, for any accumulator. -/
theorem foldl_bitsToBytes (l : List Bool) :
    l.length % 8 = 0 →
    ∀ a, List.foldl (fun x b => 256 * x + b) a (bitsToBytes l) =
      List.foldl (fun x b => 2 * x + (if b then 1 else 0)) a l := by
  induction l using bitsToBytes.induct with
  | case1 b0 b1 b2 b3 b4 b5 b6 b7 rest ih =>
    intro hlen a
    have hr : rest.length % 8 = 0 := by
      simp only [List.length_cons] at hlen
      omega
    simp only [bitsToBytes]
    rw [List.foldl_cons, ih hr]
    simp only [List.foldl_cons, List.foldl_nil]
    congr 1
    ring
  | case2 l h =>
    intro hlen a
    rcases l with _ | ⟨b0, l⟩
    · rfl
    rcases l with _ | ⟨b1, l⟩
    · simp only [List.length_cons, List.length_nil] at hlen
      omega
    rcases l with _ | ⟨b2, l⟩
    · simp only [List.length_cons, List.length_nil] at hlen
      omega
    rcases l with _ | ⟨b3, l⟩
    · simp only [List.length_cons, List.length_nil] at hlen
      omega
    rcases l with _ | ⟨b4, l⟩
    · simp only [List.length_cons, List.length_nil] at hlen
      omega
    rcases l with _ | ⟨b5, l⟩
    · simp only [List.length_cons, List.length_nil] at hlen
      omega
    rcases l with _ | ⟨b6, l⟩
    · simp only [List.length_cons, List.length_nil] at hlen
      omega
    rcases l with _ | ⟨b7, l⟩
    · simp only [List.length_cons, List.length_nil] at hlen
      omega
    exact absurd rfl (h b0 b1 b2 b3 b4 b5 b6 b7 l)

/-- Helper: the value of one 8-bit group is below 256. -/
theorem byteVal8_lt (b0 b1 b2 b3 b4 b5 b6 b7 : Bool) :
    List.foldl (fun x b => 2 * x + (if b then 1 else 0)) 0
      [b0, b1, b2, b3, b4, b5, b6, b7] < 256 := by
  simp only [List.foldl_cons, List.foldl_nil]
  have h0 : (if b0 then 1 else 0) ≤ 1 := by cases b0 <;> decide
  have h1 : (if b1 then 1 else 0) ≤ 1 := by cases b1 <;> decide
  have h2 : (if b2 then 1 else 0) ≤ 1 := by cases b2 <;> decide
  have h3 : (if b3 then 1 else 0) ≤ 1 := by cases b3 <;> decide
  have h4 : (if b4 then 1 else 0) ≤ 1 := by cases b4 <;> decide
  have h5 : (if b5 then 1 else 0) ≤ 1 := by cases b5 <;> decide
  have h6 : (if b6 then 1 else 0) ≤ 1 := by cases b6 <;> decide
  have h7 : (if b7 then 1 else 0) ≤ 1 := by cases b7 <;> decide
  omega

/-- Helper: every byte produced by the re-chunking is below 256. -/
theorem bitsToBytes_bytes_lt (l : List Bool) : ∀ b ∈ bitsToBytes l, b < 256 := by
  induction l using bitsToBytes.induct with
  | case1 b0 b1 b2 b3 b4 b5 b6 b7 rest ih =>
    intro b hb
    simp only [bitsToBytes, List.mem_cons] at hb
    rcases hb with rfl | hb
    · exact byteVal8_lt b0 b1 b2 b3 b4 b5 b6 b7
    · exact ih b hb
  | case2 l h =>
    intro b hb
    rcases l with _ | ⟨b0, l⟩
    · rw [show bitsToBytes [] = [] from rfl] at hb
      simp at hb
    rcases l with _ | ⟨b1, l⟩
    · rw [show bitsToBytes [b0] = [] from rfl] at hb
      simp at hb
    rcases l with _ | ⟨b2, l⟩
    · rw [show bitsToBytes [b0, b1] = [] from rfl] at hb
      simp at hb
    rcases l with _ | ⟨b3, l⟩
    · rw [show bitsToBytes [b0, b1, b2] = [] from rfl] at hb
      simp at hb
    rcases l with _ | ⟨b4, l⟩
    · rw [show bitsToBytes [b0, b1, b2, b3] = [] from rfl] at hb
      simp at hb
    rcases l with _ | ⟨b5, l⟩
    · rw [show bitsToBytes [b0, b1, b2, b3, b4] = [] from rfl] at hb
      simp at hb
    rcases l with _ | ⟨b6, l⟩
    · rw [show bitsToBytes [b0, b1, b2, b3, b4, b5] = [] from rfl] at hb
      simp at hb
    rcases l with _ | ⟨b7, l⟩
    · rw [show bitsToBytes [b0, b1, b2, b3, b4, b5, b6] = [] from rfl] at hb
      simp at hb
    exact absurd rfl (h b0 b1 b2 b3 b4 b5 b6 b7 l)

/-- C2: `c32Decode` builds the concatenation of the 5-bit groups of the
case-insensitively mapped characters, trims leading zero bits to the byte
boundary, left-pads with zero bits if still unaligned, and returns the
resulting bytes whose big-endian value equals the value of the original bit
string (no non-zero high bit is ever truncated); it fails, always with
`InvalidCharacter`, exactly when some character is outside the alphabet. -/
theorem c2_c32Decode_spec :
    ∀ (s : String),
      ((c32CharsToBits s.toList).isSome = s.toList.all isC32Char) ∧
      (c32Decode s = .error .InvalidCharacter ↔
        ¬ ∀ c ∈ s.toList, isC32Char c) ∧
      (∀ e, c32Decode s = .error e → e = .InvalidCharacter) ∧
      (∀ bits, c32CharsToBits s.toList = some bits →
        c32Decode s = .ok (bitsToBytes (padBitsTo8 (trimBits bits))) ∧
        beBytesToNat (bitsToBytes (padBitsTo8 (trimBits bits))) = bitsToNat bits ∧
        ∀ b ∈ bitsToBytes (padBitsTo8 (trimBits bits)), b < 256) := by
  intro s
  refine ⟨c32CharsToBits_isSome s.toList, ?_, c32Decode_error_eq s, ?_⟩
  · constructor
    · intro herr
      intro hforall
      have hall : s.toList.all isC32Char = true := List.all_eq_true.mpr hforall
      have hsome := c32CharsToBits_isSome s.toList
      rw [hall] at hsome
      rcases hb : c32CharsToBits s.toList with _ | bits
      · rw [hb] at hsome
        simp at hsome
      · unfold c32Decode at herr
        rw [hb] at herr
        simp at herr
    · intro hforall
      rcases hb : c32CharsToBits s.toList with _ | bits
      · unfold c32Decode
        rw [hb]
      · exfalso
        apply hforall
        have hsome := c32CharsToBits_isSome s.toList
        rw [hb] at hsome
        simp only [Option.isSome_some] at hsome
        exact List.all_eq_true.mp hsome.symm
  · intro bits hbits
    refine ⟨?_, ?_, bitsToBytes_bytes_lt _⟩
    · unfold c32Decode
      rw [hbits]
    · have h1 : beBytesToNat (bitsToBytes (padBitsTo8 (trimBits bits))) =
          bitsToNat (padBitsTo8 (trimBits bits)) :=
        foldl_bitsToBytes _ (padBitsTo8_length _) 0
      rw [h1, bitsToNat_padBitsTo8, bitsToNat_trimBits]

/-- Witness for C2: the body `"P0"` decodes to `[2, 192]`, whose big-endian
value equals the value of the ten concatenated bits. -/
theorem c2_witness :
    c32Decode "P0" = .ok [2, 192] ∧
    beBytesToNat [2, 192] =
      bitsToNat [true, false, true, true, false, false, false, false, false, false] :=
  have h := (c2_c32Decode_spec "P0").2.2.2
    [true, false, true, true, false, false, false, false, false, false] (by decide)
  ⟨h.1, h.2.1⟩

/-- C3: `encodeRecipient` fails with `UnknownAddressPrefix` exactly when the
uppercased 2-character start is neither `ST` nor `SP`; with a known start
and a decodable body it fails with `MalformedBody` exactly when the decoded
length is not 24; otherwise it returns exactly 21 bytes — the version byte
(26 for `ST`, 22 for `SP`) followed by the first 20 decoded bytes, the 4
checksum bytes dropped unvalidated. -/
theorem c3_encode_recipient_contract :
    ∀ (addr : String),
      (encodeRecipient addr = .error .UnknownAddressPrefix ↔
        addrVersionKey addr ≠ "ST" ∧ addrVersionKey addr ≠ "SP") ∧
      (∀ d, (addrVersionKey addr = "ST" ∨ addrVersionKey addr = "SP") →
        c32Decode (addr.drop 2) = .ok d →
        ((encodeRecipient addr = .error .MalformedBody ↔ d.length ≠ 24) ∧
         (d.length = 24 →
           encodeRecipient addr =
             .ok ((if addrVersionKey addr = "ST" then 26 else 22) :: d.take 20) ∧
           ∀ r, encodeRecipient addr = .ok r → r.length = 21))) := by
  intro addr
  rcases hv : stacksVersionOf? (addrVersionKey addr) with _ | v
  · have hne : addrVersionKey addr ≠ "ST" ∧ addrVersionKey addr ≠ "SP" := by
      constructor <;> intro he <;>
        simp [stacksVersionOf?, he] at hv
    constructor
    · simp [encodeRecipient, hv, hne.1, hne.2]
    · intro d hor hd
      rcases hor with h | h
      · exact absurd h hne.1
      · exact absurd h hne.2
  · have hkey : (addrVersionKey addr = "ST" ∧ v = 26) ∨
        (addrVersionKey addr = "SP" ∧ v = 22) := by
      by_cases h1 : addrVersionKey addr = "ST"
      · left
        refine ⟨h1, ?_⟩
        simp [stacksVersionOf?, h1, STACKS_TESTNET_P2PKH] at hv
        omega
      · by_cases h2 : addrVersionKey addr = "SP"
        · right
          refine ⟨h2, ?_⟩
          simp [stacksVersionOf?, h1, h2, STACKS_MAINNET_P2PKH] at hv
          omega
        · simp [stacksVersionOf?, h1, h2] at hv
    constructor
    · constructor
      · intro h
        exfalso
        rcases hdec : c32Decode (addr.drop 2) with e | d
        · have he := c32Decode_error_eq _ _ hdec
          subst he
          simp [encodeRecipient, hv, hdec] at h
        · by_cases hl : d.length = 24 <;>
            simp [encodeRecipient, hv, hdec, hl] at h
      · intro hne
        rcases hkey with ⟨hk, _⟩ | ⟨hk, _⟩
        · exact absurd hk hne.1
        · exact absurd hk hne.2
    · intro d _hor hd
      constructor
      · simp only [encodeRecipient, hv, hd]
        by_cases hl : d.length = 24
        · simp [hl]
        · simp [hl]
      · intro h24
        constructor
        · simp only [encodeRecipient, hv, hd]
          rw [if_neg (by simp [h24])]
          rcases hkey with ⟨hk, rfl⟩ | ⟨hk, rfl⟩
          · simp [hk]
          · have : addrVersionKey addr ≠ "ST" := by
              rw [hk]
              decide
            simp [this]
        · intro r hr
          simp only [encodeRecipient, hv, hd] at hr
          rw [if_neg (by simp [h24])] at hr
          rw [Except.ok.injEq] at hr
          rw [← hr]
          simp [List.length_take, h24]

/-- Witness for C3 on the C1 scenario address. -/
theorem c3_witness :
    encodeRecipient c1Addr =
      .ok ((if addrVersionKey c1Addr = "ST" then 26 else 22) :: c1Decoded.take 20) :=
  (((c3_encode_recipient_contract c1Addr).2 c1Decoded
      (Or.inl (by set_option maxRecDepth 20000 in decide))
      (by set_option maxRecDepth 20000 in decide)).2 (by decide)).1

/-- Environment for the C6 counterexample: a 402, then a 2xx settlement
response whose body is not valid JSON. -/
def c6BadJsonEnv : ClientEnv :=
  ⟨⟨402, true⟩, ⟨200, false⟩, ⟨200, true⟩⟩

/-- C6 counterexample: the settlement trigger reports success (status 200),
yet the original request is not reissued — `await demoResponse.json()`
rejects on the non-JSON body and the operation throws before the retry, so
the claim's unconditional "if it reports success the original request is
reissued exactly once and that second response is returned" fails at this
concrete response sequence. -/
theorem c6_counterexample :
    (clientGet "http://b" "http://a/x" none c6BadJsonEnv).2 =
      .error .SettlementBodyNotJson ∧
    ((clientGet "http://b" "http://a/x" none c6BadJsonEnv).1.filter
      (fun c => c.kind = FetchKind.gated)).length = 1 := by
  decide

/-- C6 (amended): for every response sequence the client performs at most
two fetches of the gated resource and at most one settlement call; a
non-402 first response is returned unchanged with no settlement call; a
failed settlement (non-2xx) aborts with `PaymentExecutionFailed` and no
retry; a 2xx settlement response whose body is not valid JSON throws before
the retry; a 2xx settlement response whose body parses as JSON leads to
exactly one retry whose response is returned regardless of status. -/
theorem c6_client_protocol_amended :
    ∀ (apiBaseUrl url : String) (options : Option JsRequestInit) (env : ClientEnv),
      ((clientGet apiBaseUrl url options env).1.filter
        (fun c => c.kind = FetchKind.gated)).length ≤ 2 ∧
      ((clientGet apiBaseUrl url options env).1.filter
        (fun c => c.kind = FetchKind.settlement)).length ≤ 1 ∧
      (env.first.status ≠ 402 →
        clientGet apiBaseUrl url options env =
          ([⟨.gated, url, spreadWithGet options⟩], .ok env.first)) ∧
      (env.first.status = 402 → env.demo.isOk = false →
        (clientGet apiBaseUrl url options env).2 =
          .error (.PaymentExecutionFailed env.demo.status) ∧
        ((clientGet apiBaseUrl url options env).1.filter
          (fun c => c.kind = FetchKind.gated)).length = 1) ∧
      (env.first.status = 402 → env.demo.isOk = true →
        env.demo.bodyIsJson = false →
        (clientGet apiBaseUrl url options env).2 = .error .SettlementBodyNotJson ∧
        ((clientGet apiBaseUrl url options env).1.filter
          (fun c => c.kind = FetchKind.gated)).length = 1) ∧
      (env.first.status = 402 → env.demo.isOk = true →
        env.demo.bodyIsJson = true →
        (clientGet apiBaseUrl url options env).2 = .ok env.retry ∧
        ((clientGet apiBaseUrl url options env).1.filter
          (fun c => c.kind = FetchKind.gated)).length = 2 ∧
        ((clientGet apiBaseUrl url options env).1.filter
          (fun c => c.kind = FetchKind.settlement)).length = 1) := by
  intro base url options env
  by_cases h1 : env.first.status = 402
  · by_cases h2 : env.demo.isOk = true
    · by_cases h3 : env.demo.bodyIsJson = true
      · simp [clientGet, h1, h2, h3, List.filter]
      · have h3f : env.demo.bodyIsJson = false := by
          revert h3
          cases env.demo.bodyIsJson <;> simp
        simp [clientGet, h1, h2, h3f, List.filter]
    · have h2f : env.demo.isOk = false := by
        revert h2
        cases env.demo.isOk <;> simp
      simp [clientGet, h1, h2f, List.filter]
  · simp [clientGet, h1, List.filter]

/-- Witness for C6 (amended): on a 402 then a successful settlement with a
JSON body, the retry's response is returned. -/
theorem c6_witness :
    (clientGet "http://b" "http://a/x" none
        ⟨⟨402, true⟩, ⟨200, true⟩, ⟨207, true⟩⟩).2 =
      .ok ⟨207, true⟩ :=
  ((c6_client_protocol_amended "http://b" "http://a/x" none
      ⟨⟨402, true⟩, ⟨200, true⟩, ⟨207, true⟩⟩).2.2.2.2.2
    (by decide) (by decide) (by decide)).1

/-! ## C7: the signer service -/

/-- Environment for the C7 counterexample: every chain call would succeed. -/
def c7Env : SignerEnv :=
  { derive := .ok "STSENDER", build := .ok (),
    broadcast := .ok { error := none, reason := none, txid := "0xtx" } }

/-- C7 counterexample: invoked with three arguments whose amount string is
not a valid integer, the `BigInt` conversion throws outside the `try` block;
the process crashes with no JSON failure line and no structured exit,
contradicting "never throwing past the service boundary (every exception
path emits a JSON failure line)". -/
theorem c7_counterexample :
    signerMain c7Env ["aabb", "SPRECIPIENT", "abc"] =
      { lines := [], exitCode := none, keyTouched := false } := by
  decide

/-- C7 (amended): with fewer than three positional arguments the signer
reports the structured usage error and exits 1 before touching key material;
provided the amount argument parses as a BigInt (the conversion runs before
the `try` block), every path emits exactly one JSON line and terminates with
a defined exit code, and a broadcast rejection yields a structured failure
carrying the network's error code and reason with exit code 1. -/
theorem c7_signer_amended :
    ∀ (env : SignerEnv) (args : List String),
      (args.length < 3 →
        signerMain env args =
          { lines := [.failure SIGNER_USAGE none], exitCode := some 1,
            keyTouched := false }) ∧
      (∀ privateKey recipient amountStr rest,
        args = privateKey :: recipient :: amountStr :: rest →
        (bigIntOfString? amountStr).isSome →
        ((signerMain env args).exitCode.isSome ∧
          (signerMain env args).lines.length = 1) ∧
        (∀ sender resp code, env.derive = .ok sender → env.build = .ok () →
          env.broadcast = .ok resp → resp.error = some code →
          signerMain env args =
            { lines := [.failure code resp.reason], exitCode := some 1,
              keyTouched := true }) ∧
        (∀ msg, env.derive = .error msg →
          signerMain env args =
            { lines := [.failure msg none], exitCode := some 1,
              keyTouched := true })) := by
  intro env args
  constructor
  · intro h
    rcases args with _ | ⟨k, _ | ⟨r, _ | ⟨a, rest⟩⟩⟩
    · rfl
    · rfl
    · rfl
    · simp at h
      omega
  · intro k r a rest heq hparse
    subst heq
    rcases hp : bigIntOfString? a with _ | n
    · rw [hp] at hparse
      simp at hparse
    · refine ⟨?_, ?_, ?_⟩
      · rcases hd : env.derive with msg | sender
        · simp [signerMain, hp, hd]
        · rcases hb : env.build with msg | u
          · simp [signerMain, hp, hd, hb]
          · rcases hbr : env.broadcast with msg | resp
            · simp [signerMain, hp, hd, hb, hbr]
            · rcases he : resp.error with _ | code
              · simp [signerMain, hp, hd, hb, hbr, he]
              · simp [signerMain, hp, hd, hb, hbr, he]
      · intro sender resp code hd hb hbr he
        simp [signerMain, hp, hd, hb, hbr, he]
      · intro msg hd
        simp [signerMain, hp, hd]

/-- Environment for the C7 witness: the broadcast is rejected with a code
and a reason. -/
def c7RejEnv : SignerEnv :=
  { derive := .ok "STSENDER", build := .ok (),
    broadcast := .ok { error := some "ConflictingNonceInMempool",
                       reason := some "nonce conflict", txid := "" } }

/-- Witness for C7 (amended) at a concrete broadcast rejection. -/
theorem c7_witness :
    signerMain c7RejEnv ["aabb", "SP1", "100000"] =
      { lines := [.failure "ConflictingNonceInMempool" (some "nonce conflict")],
        exitCode := some 1, keyTouched := true } :=
  ((c7_signer_amended c7RejEnv ["aabb", "SP1", "100000"]).2 "aabb" "SP1" "100000" []
    rfl (by decide)).2.1 "STSENDER"
    { error := some "ConflictingNonceInMempool",
      reason := some "nonce conflict", txid := "" }
    "ConflictingNonceInMempool" rfl rfl rfl rfl

/-- Witness for C10: the caller asks for DELETE, the recorded call is GET. -/
theorem c10_witness :
    (FetchCall.mk .gated "http://a/x"
      (spreadWithGet (some ⟨some "DELETE", [("A", "B")]⟩))).init.method =
      some "GET" :=
  c10_method_forced_get "http://b" "http://a/x" (some ⟨some "DELETE", [("A", "B")]⟩)
    ⟨⟨200, true⟩, ⟨200, true⟩, ⟨200, true⟩⟩
    (FetchCall.mk .gated "http://a/x" (spreadWithGet (some ⟨some "DELETE", [("A", "B")]⟩)))
    (by decide) rfl
